import Mathlib

/-!
Verification of the RankedServer core against its natural-language
specification.  The definitions below are a shallow embedding of
`src/hqm_server.rs` (and, where a type lives in `hqm_game.rs` /
`hqm_parse.rs` / `hqm_simulate.rs`, which are not part of the three given
source files, of the shape those types are given by their uses in
`hqm_server.rs` together with the spec's data model).

Modelling conventions:
* machine integers (`u32`, `usize`) are modelled as `Nat`; where overflow,
  `checked_sub` or a `u32::MAX` sentinel matters, it is modelled explicitly;
* a Rust panic (`unwrap`, out-of-bounds index, slice, overflow in debug) is
  modelled as `Option.none` of the function's result;
* `f32` positions and faceoff spots are never inspected by the code paths
  under verification, only stored and copied, so they are kept as type
  parameters `P` (position) and `F` (faceoff spot); the floating-point rink
  geometry (`has_players_in_offensive_zone`, `get_offside_faceoff_spot`,
  `get_icing_faceoff_spot`) is abstracted into oracle parameters.
-/

namespace RankedServer

/-- Teams (`hqm_game.rs`, used throughout `hqm_server.rs`). -/
inductive HQMTeam
  | red
  | blue
deriving DecidableEq

/-- Opposing team; `hqm_server.rs:1629-1632`. -/
def HQMTeam.other : HQMTeam → HQMTeam
  | .red => .blue
  | .blue => .red

/-- Offside status; variants as constructed in `hqm_server.rs` (spec §3):
`InNeutralZone`, `InOffensiveZone(team)`, `Warning(team, pass_origin, passer)`,
`Offside(team)`. -/
inductive HQMOffsideStatus (P : Type)
  | inNeutralZone
  | inOffensiveZone (team : HQMTeam)
  | warning (team : HQMTeam) (passOrigin : P) (passerIndex : Nat)
  | offside (team : HQMTeam)
deriving DecidableEq

/-- Icing status; variants as constructed in `hqm_server.rs` (spec §3):
`No`, `NotTouched(team, pass_origin)`, `Warning(team, pass_origin)`,
`Icing(team)`. -/
inductive HQMIcingStatus (P : Type)
  | no
  | notTouched (team : HQMTeam) (passOrigin : P)
  | warning (team : HQMTeam) (passOrigin : P)
  | icing (team : HQMTeam)
deriving DecidableEq

/-- Modelled from the spec: `is_offside` lives in the missing `hqm_game.rs`;
spec §4.3/§4.8 distinguish exactly the `Offside(_)` variant. -/
def HQMOffsideStatus.isOffside {P : Type} : HQMOffsideStatus P → Bool
  | .offside _ => true
  | _ => false

/-- Modelled from the spec: `is_icing` lives in the missing `hqm_game.rs`;
spec §4.3/§4.8 distinguish exactly the `Icing(_)` variant. -/
def HQMIcingStatus.isIcing {P : Type} : HQMIcingStatus P → Bool
  | .icing _ => true
  | _ => false

/-- One entry of a puck's touch history (spec §3: {session, team, time,
position}; fields named after their uses `touch.player_index`, `touch.team`,
`touch.puck_pos` in `hqm_server.rs`). -/
structure HQMPuckTouch (P : Type) where
  playerIndex : Nat
  team : HQMTeam
  puckPos : P
  time : Nat
deriving DecidableEq

/-- Puck object: position plus touch history, front-most touch first
(spec §3; `puck.body.pos` and `puck.touches` in `hqm_server.rs`). -/
structure HQMPuck (P : Type) where
  pos : P
  touches : List (HQMPuckTouch P)
deriving DecidableEq

/-- Modelled from the spec: `HQMPuck::add_touch` lives in the missing
`hqm_game.rs`; spec §4.3 — "append {session, team, tick_time, puck_pos} to
puck.touches (front-push, bounded history)".  The (unspecified) bound of the
history only truncates the tail and is immaterial to every claim, so it is
not modelled. -/
def HQMPuck.addTouch {P : Type} (puck : HQMPuck P) (playerIndex : Nat)
    (team : HQMTeam) (time : Nat) : HQMPuck P :=
  { puck with touches := ⟨playerIndex, team, puck.pos, time⟩ :: puck.touches }

/-- Skater object: the fields of `hqm_game.rs`'s skater read by the rule
engine (`hqm_server.rs:1617-1620`): connected player index, team, faceoff
position label. -/
structure HQMSkater where
  connectedPlayerIndex : Nat
  team : HQMTeam
  faceoffPosition : String
deriving DecidableEq

/-- World-object slot: Empty, Puck or Skater (spec §3; `HQMGameObject` of
`hqm_game.rs`, variants `None` / `Puck` / `Player` as matched in
`hqm_server.rs`). -/
inductive HQMGameObject (P : Type)
  | none
  | puck (puck : HQMPuck P)
  | player (skater : HQMSkater)
deriving DecidableEq

/-- Reliable message-log entry (spec §3; `HQMMessage` of `hqm_game.rs`,
variants as constructed in `hqm_server.rs`). -/
inductive HQMMessage
  | chat (playerIndex : Option Nat) (message : String)
  | goal (team : HQMTeam) (goalPlayerIndex : Option Nat)
      (assistPlayerIndex : Option Nat)
  | playerUpdate (playerName : String) (object : Option (Nat × HQMTeam))
      (playerIndex : Nat) (inServer : Bool)
deriving DecidableEq

/-- Per-game ranked statistics row (`RHQMGamePlayer` of the missing
`hqm_game.rs`; the fields `player_i_r`, `goals`, `assists` as used at
`hqm_server.rs:1536-1554`). -/
structure RHQMGamePlayer where
  playerIR : Nat
  goals : Nat
  assists : Nat
deriving DecidableEq

/-- Icing configuration (`hqm_server.rs:4196-4201`). -/
inductive HQMIcingConfiguration
  | off
  | touch
  | noTouch
deriving DecidableEq

/-- Offside configuration (`hqm_server.rs:4203-4208`). -/
inductive HQMOffsideConfiguration
  | off
  | delayed
  | immediate
deriving DecidableEq

/-- The configuration fields consumed by the code paths under verification
(`HQMServerConfiguration`, `hqm_server.rs:4221-4249`).  Times are in seconds
and multiplied by 100 (centiseconds) where the source does so. -/
structure HQMServerConfiguration where
  timeBreak : Nat
  timeIntermission : Nat
  mercyRule : Nat
  icing : HQMIcingConfiguration
  offside : HQMOffsideConfiguration
  playerMax : Nat
  welcome : List String

/-- Rink data used by the rule engine: the centre faceoff spot and the two
faceoff-spot selectors (`hqm_game.rs` geometry, abstracted; the rule engine
only forwards a stored pass origin into them). -/
structure HQMRink (P F : Type) where
  centerFaceoffSpot : F
  getOffsideFaceoffSpot : P → HQMTeam → F
  getIcingFaceoffSpot : P → HQMTeam → F

/-- The game state read and written by the rule engine
(fields of `HQMGame` as used in `hqm_server.rs:1493-1747`).
`messages` models the global broadcast log: `add_global_message`
(`hqm_server.rs:1103-1118`) appends one immutable entry that every consumer
(replay log, persistent log, per-session queues) observes. -/
structure HQMGame (P F : Type) where
  period : Nat
  time : Nat
  timeBreak : Nat
  paused : Bool
  gameOver : Bool
  isIntermissionGoal : Bool
  redScore : Nat
  blueScore : Nat
  offsideStatus : HQMOffsideStatus P
  icingStatus : HQMIcingStatus P
  nextFaceoffSpot : F
  shootoutNumber : Nat
  shootoutRedScore : List String
  shootoutBlueScore : List String
  gamePlayers : List RHQMGamePlayer
  objects : List (HQMGameObject P)
  messages : List HQMMessage
deriving DecidableEq

/-- Broadcast of one message (`add_global_message`, `hqm_server.rs:1103`):
one append to the shared log. -/
def addGlobalMessage {P F : Type} (g : HQMGame P F) (m : HQMMessage) :
    HQMGame P F :=
  { g with messages := g.messages ++ [m] }

/-- Server chat broadcast (`add_server_chat_message`, `hqm_server.rs:1066`). -/
def addServerChatMessage {P F : Type} (g : HQMGame P F) (s : String) :
    HQMGame P F :=
  addGlobalMessage g (.chat Option.none s)

/-- Score increment of `call_goal`, `hqm_server.rs:1494-1500`: the score is
incremented only in regulation (`period <= 3`). -/
def goalScores {P F : Type} (g : HQMGame P F) (team : HQMTeam) : HQMGame P F :=
  if g.period ≤ 3 then
    match team with
    | .red => { g with redScore := g.redScore + 1 }
    | .blue => { g with blueScore := g.blueScore + 1 }
  else g

/-- Unconditional updates of `call_goal`, `hqm_server.rs:1502-1504`. -/
def goalTimers {P F : Type} (cfg : HQMServerConfiguration) (rink : HQMRink P F)
    (g : HQMGame P F) : HQMGame P F :=
  { g with
    timeBreak := cfg.timeBreak * 100
    isIntermissionGoal := true
    nextFaceoffSpot := rink.centerFaceoffSpot }

/-- Rust `vec[i] = "+"` on a `Vec<String>`: panics (`Option.none`) when the
index is out of bounds (`hqm_server.rs:1510,1512`). -/
def setShootoutPlus (l : List String) (i : Nat) : Option (List String) :=
  if i < l.length then some (l.set i "+") else Option.none

/-- Overtime/shootout branch of `call_goal`, `hqm_server.rs:1505-1514`. -/
def goalShootout {P F : Type} (cfg : HQMServerConfiguration) (g : HQMGame P F)
    (team : HQMTeam) : Option (HQMGame P F) :=
  if 3 < g.period then
    let g2 := { g with timeBreak := cfg.timeIntermission * 100, time := 0 }
    match team with
    | .red =>
        (setShootoutPlus g2.shootoutRedScore g2.shootoutNumber).map
          fun l => { g2 with shootoutRedScore := l }
    | .blue =>
        (setShootoutPlus g2.shootoutBlueScore g2.shootoutNumber).map
          fun l => { g2 with shootoutBlueScore := l }
  else some g

/-- Mercy-rule checks of `call_goal`, `hqm_server.rs:1516-1524` (two
sequential `if`s over the already-updated scores). -/
def goalMercy {P F : Type} (cfg : HQMServerConfiguration) (g : HQMGame P F) :
    HQMGame P F :=
  let g1 :=
    if g.redScore + cfg.mercyRule = g.blueScore then
      { g with timeBreak := cfg.timeIntermission * 100, gameOver := true }
    else g
  if g1.redScore = g1.blueScore + cfg.mercyRule then
    { g1 with timeBreak := cfg.timeIntermission * 100, gameOver := true }
  else g1

/-- Statistics update for the goal scorer, `hqm_server.rs:1536-1543`: find
the row with `player_i_r == player_index` and bump `goals`; the source
`unwrap`s the search, so an absent row is a panic (`Option.none`). -/
def bumpGoals : List RHQMGamePlayer → Nat → Option (List RHQMGamePlayer)
  | [], _ => Option.none
  | p :: ps, idx =>
      if p.playerIR = idx then some ({ p with goals := p.goals + 1 } :: ps)
      else (bumpGoals ps idx).map (p :: ·)

/-- Statistics update for the assist, `hqm_server.rs:1547-1554`; same
panicking lookup as `bumpGoals`. -/
def bumpAssists : List RHQMGamePlayer → Nat → Option (List RHQMGamePlayer)
  | [], _ => Option.none
  | p :: ps, idx =>
      if p.playerIR = idx then some ({ p with assists := p.assists + 1 } :: ps)
      else (bumpAssists ps idx).map (p :: ·)

/-- Continuation of the `call_goal` touch loop once the scorer is fixed
(`hqm_server.rs:1544-1556`): the first later touch by the same team with a
player index different from the scorer becomes the assist (then `break`). -/
def creditAssist {P : Type} (team : HQMTeam) (scorer : Nat) :
    List (HQMPuckTouch P) → List RHQMGamePlayer →
    Option (Option Nat × List RHQMGamePlayer)
  | [], gps => some (Option.none, gps)
  | t :: ts, gps =>
      if t.team = team ∧ t.playerIndex ≠ scorer then
        (bumpAssists gps t.playerIndex).map fun gps2 => (some t.playerIndex, gps2)
      else creditAssist team scorer ts gps

/-- The `call_goal` touch loop (`hqm_server.rs:1530-1558`): scan the touch
history front-most first; the first touch by `team` fixes the scorer. -/
def creditScorer {P : Type} (team : HQMTeam) :
    List (HQMPuckTouch P) → List RHQMGamePlayer →
    Option (Option Nat × Option Nat × List RHQMGamePlayer)
  | [], gps => some (Option.none, Option.none, gps)
  | t :: ts, gps =>
      if t.team = team then
        (bumpGoals gps t.playerIndex).bind fun gps2 =>
          (creditAssist team t.playerIndex ts gps2).map
            fun r => (some t.playerIndex, r.1, r.2)
      else creditScorer team ts gps

/-- Scorer/assist selection of `call_goal`, `hqm_server.rs:1526-1559`:
indexing `objects[puck]` out of bounds is a Rust panic (`Option.none`); a
non-puck slot skips the loop and leaves both indices `None`. -/
def goalCredit {P F : Type} (g : HQMGame P F) (team : HQMTeam)
    (puckIdx : Nat) : Option (Option Nat × Option Nat × HQMGame P F) :=
  match g.objects.get? puckIdx with
  | Option.none => Option.none
  | some (HQMGameObject.puck pk) =>
      (creditScorer team pk.touches g.gamePlayers).map
        fun r => (r.1, r.2.1, { g with gamePlayers := r.2.2 })
  | some _ => some (Option.none, Option.none, g)

/-- `call_goal` (`hqm_server.rs:1493-1567`), composed from its statement
blocks in source order; `Option.none` models a panic inside the call. -/
def callGoal {P F : Type} (cfg : HQMServerConfiguration) (rink : HQMRink P F)
    (g : HQMGame P F) (team : HQMTeam) (puckIdx : Nat) : Option (HQMGame P F) :=
  (goalShootout cfg (goalTimers cfg rink (goalScores g team)) team).bind
    fun g3 =>
      (goalCredit (goalMercy cfg g3) team puckIdx).map
        fun r => addGlobalMessage r.2.2 (HQMMessage.goal team r.1 r.2.1)

/-- `call_offside` (`hqm_server.rs:1569-1578`). -/
def callOffside {P F : Type} (cfg : HQMServerConfiguration)
    (rink : HQMRink P F) (g : HQMGame P F) (team : HQMTeam) (passOrigin : P) :
    HQMGame P F :=
  addServerChatMessage
    { g with
      nextFaceoffSpot := rink.getOffsideFaceoffSpot passOrigin team
      timeBreak := cfg.timeBreak * 100
      offsideStatus := .offside team }
    "Offside"

/-- `call_icing` (`hqm_server.rs:1580-1589`). -/
def callIcing {P F : Type} (cfg : HQMServerConfiguration) (rink : HQMRink P F)
    (g : HQMGame P F) (team : HQMTeam) (passOrigin : P) : HQMGame P F :=
  addServerChatMessage
    { g with
      nextFaceoffSpot := rink.getIcingFaceoffSpot passOrigin team
      timeBreak := cfg.timeBreak * 100
      icingStatus := .icing team }
    "Icing"

/-- Simulation events (`HQMSimulationEvent` of the missing
`hqm_simulate.rs`; variants and payloads as matched at
`hqm_server.rs:1601-1739` and described in spec §4.2). -/
inductive HQMSimulationEvent
  | puckEnteredNet (team : HQMTeam) (puck : Nat)
  | puckTouch (player : Nat) (puck : Nat)
  | puckEnteredOtherHalf (team : HQMTeam) (puck : Nat)
  | puckPassedGoalLine (team : HQMTeam) (puck : Nat)
  | puckEnteredOffensiveZone (team : HQMTeam) (puck : Nat)
  | puckLeftOffensiveZone (team : HQMTeam) (puck : Nat)
deriving DecidableEq

/-- The early-return guard of `handle_events` (`hqm_server.rs:1592-1600`). -/
def rulesGuard {P F : Type} (g : HQMGame P F) : Bool :=
  g.offsideStatus.isOffside || g.icingStatus.isIcing || g.period == 0 ||
    g.time == 0 || decide (0 < g.timeBreak) || g.paused

/-- One iteration of the `handle_events` event loop
(`hqm_server.rs:1601-1739`).  `zo team` abstracts
`has_players_in_offensive_zone(world, team)` (`hqm_server.rs:3478-3499`),
whose floating-point geometry reads only skater positions, which this loop
never modifies.  `Option.none` models a Rust panic (out-of-bounds object
index). -/
def handleEvent {P F : Type} (cfg : HQMServerConfiguration)
    (rink : HQMRink P F) (zo : HQMTeam → Bool) (g : HQMGame P F) :
    HQMSimulationEvent → Option (HQMGame P F)
  | .puckEnteredNet team puckIdx =>
      match g.offsideStatus with
      | .warning offsideTeam p _ =>
          if offsideTeam = team then some (callOffside cfg rink g team p)
          else callGoal cfg rink g team puckIdx
      | .offside _ => some g
      | _ => callGoal cfg rink g team puckIdx
  | .puckTouch playerIdx puckIdx =>
      match g.objects.get? playerIdx with
      | Option.none => Option.none
      | some (HQMGameObject.player skater) =>
          let cpi := skater.connectedPlayerIndex
          let touchingTeam := skater.team
          let faceoffPosition := skater.faceoffPosition
          match g.objects.get? puckIdx with
          | Option.none => Option.none
          | some (HQMGameObject.puck pk) =>
              let pk2 := pk.addTouch cpi touchingTeam g.time
              let g2 := { g with objects := g.objects.set puckIdx (.puck pk2) }
              let otherTeam := touchingTeam.other
              match g2.offsideStatus with
              | .warning team p i =>
                  -- hqm_server.rs:1634-1645: the `continue` skips the icing
                  -- checks whenever an offside warning is pending
                  if team = touchingTeam then
                    let passOrigin := if cpi = i then pk2.pos else p
                    some (callOffside cfg rink g2 touchingTeam passOrigin)
                  else some g2
              | _ =>
                  match g2.icingStatus with
                  | .warning team p =>
                      if touchingTeam ≠ team then
                        if faceoffPosition = "G" then
                          some (addServerChatMessage
                            { g2 with icingStatus := .no } "Icing waved off")
                        else some (callIcing cfg rink g2 otherTeam p)
                      else
                        some (addServerChatMessage
                          { g2 with icingStatus := .no } "Icing waved off")
                  | .notTouched _ _ => some { g2 with icingStatus := .no }
                  | _ => some g2
          | some _ => some g
      | some _ => some g
  | .puckEnteredOtherHalf team puckIdx =>
      match g.objects.get? puckIdx with
      | Option.none => Option.none
      | some (HQMGameObject.puck pk) =>
          match pk.touches.head? with
          | some touch =>
              if team = touch.team then
                match g.icingStatus with
                | .no =>
                    some { g with
                      icingStatus := .notTouched team touch.puckPos }
                | _ => some g
              else some g
          | Option.none => some g
      | some _ => some g
  | .puckPassedGoalLine team _ =>
      match g.icingStatus with
      | .notTouched icingTeam p =>
          if team = icingTeam then
            match cfg.icing with
            | .touch =>
                some (addServerChatMessage
                  { g with icingStatus := .warning team p } "Icing warning")
            | .noTouch => some (callIcing cfg rink g team p)
            | .off => some g
          else some g
      | _ => some g
  | .puckEnteredOffensiveZone team puckIdx =>
      match g.offsideStatus with
      | .inNeutralZone =>
          match g.objects.get? puckIdx with
          | Option.none => Option.none
          | some (HQMGameObject.puck pk) =>
              match pk.touches.head? with
              | some touch =>
                  if team = touch.team ∧ zo team = true then
                    match cfg.offside with
                    | .delayed =>
                        some (addServerChatMessage
                          { g with offsideStatus :=
                              .warning team touch.puckPos touch.playerIndex }
                          "Offside warning")
                    | .immediate =>
                        some (callOffside cfg rink g team touch.puckPos)
                    | .off =>
                        some { g with offsideStatus := .inOffensiveZone team }
                  else some { g with offsideStatus := .inOffensiveZone team }
              | Option.none =>
                  some { g with offsideStatus := .inOffensiveZone team }
          | some _ => some g
      | _ => some g
  | .puckLeftOffensiveZone _ _ =>
      let g2 :=
        match g.offsideStatus with
        | .warning _ _ _ => addServerChatMessage g "Offside waved off"
        | _ => g
      some { g2 with offsideStatus := .inNeutralZone }

/-- The event loop of `handle_events` over the event list. -/
def processEvents {P F : Type} (cfg : HQMServerConfiguration)
    (rink : HQMRink P F) (zo : HQMTeam → Bool) :
    HQMGame P F → List HQMSimulationEvent → Option (HQMGame P F)
  | g, [] => some g
  | g, ev :: evs =>
      (handleEvent cfg rink zo g ev).bind
        fun g2 => processEvents cfg rink zo g2 evs

/-- Post-loop check of `handle_events` (`hqm_server.rs:1741-1746`): a pending
offside warning with no attacker left in the offensive zone is waved off. -/
def offsideWarningCheck {P F : Type} (zo : HQMTeam → Bool) (g : HQMGame P F) :
    HQMGame P F :=
  match g.offsideStatus with
  | .warning team _ _ =>
      if zo team = false then
        addServerChatMessage
          { g with offsideStatus := .inOffensiveZone team } "Offside waved off"
      else g
  | _ => g

/-- `handle_events` (`hqm_server.rs:1591-1747`): guard, event loop, post-loop
offside-warning check. -/
def handleEvents {P F : Type} (cfg : HQMServerConfiguration)
    (rink : HQMRink P F) (zo : HQMTeam → Bool) (g : HQMGame P F)
    (evs : List HQMSimulationEvent) : Option (HQMGame P F) :=
  if rulesGuard g then some g
  else (processEvents cfg rink zo g evs).map (offsideWarningCheck zo)

/-! Delta snapshot encoder (`write_objects`, `hqm_server.rs:3575-3674`).
The quantized fields carried by a packet are opaque to the prior-selection
logic under verification, so they are plain `Nat`s here. -/

/-- Quantized puck packet (spec §3: 3×17-bit position, 2×31-bit
orientation; `HQMObjectPacket::Puck` of the missing `hqm_parse.rs` as used
at `hqm_server.rs:3608-3619`). -/
structure HQMPuckPacket where
  pos : Nat × Nat × Nat
  rot : Nat × Nat
deriving DecidableEq

/-- Quantized skater packet (spec §3; `HQMObjectPacket::Skater` as used at
`hqm_server.rs:3621-3667`). -/
structure HQMSkaterPacket where
  pos : Nat × Nat × Nat
  rot : Nat × Nat
  stickPos : Nat × Nat × Nat
  stickRot : Nat × Nat
  headRot : Nat
  bodyRot : Nat
deriving DecidableEq

/-- Per-slot snapshot packet (`HQMObjectPacket` of the missing
`hqm_parse.rs`; variants as matched in `write_objects`). -/
inductive HQMObjectPacket
  | none
  | puck (p : HQMPuckPacket)
  | skater (s : HQMSkaterPacket)
deriving DecidableEq

/-- One entry of the snapshot history ring (`HQMSavedTick`; only the
`packets` field matters to prior selection — the `time` field feeds the ping
measurement, not the encoder). -/
structure HQMSavedTick where
  packets : List HQMObjectPacket
deriving DecidableEq

/-- Largest `u32` value: `HQMConnectedPlayer::new` initializes
`known_packet` to `u32::MAX` (`hqm_server.rs:4152`). -/
def U32MAX : Nat := 4294967295

/-- Rust `u32::checked_sub`. -/
def checkedSub (a b : Nat) : Option Nat :=
  if b ≤ a then some (a - b) else Option.none

/-- Prior-snapshot lookup of `write_objects` (`hqm_server.rs:3583-3599`):
the ring is indexed by `game.packet − known_packet` when the client has
acked (`known_packet ≠ u32::MAX`), the checked subtraction succeeds and the
index is in `(0, 192)` and within the ring. -/
def findOldPackets (ring : List HQMSavedTick) (gamePacket knownPacket : Nat) :
    Option (List HQMObjectPacket) :=
  let diff :=
    if knownPacket = U32MAX then Option.none
    else checkedSub gamePacket knownPacket
  match diff with
  | some index =>
      if index < ring.length ∧ index < 192 ∧ 0 < index then
        (ring.get? index).map (·.packets)
      else Option.none
  | Option.none => Option.none

/-- Per-slot access to the prior snapshot (`old_packets.map(|x| &x[i])`,
`hqm_server.rs:3606`). -/
def slotOldPacket (old : Option (List HQMObjectPacket)) (i : Nat) :
    Option HQMObjectPacket :=
  old.bind fun l => l.get? i

/-- The prior packet actually fed to the `write_pos` calls for slot `i`
(`hqm_server.rs:3604-3672`): present only when the prior lookup succeeded
and the old slot has the same object type as the current one; a `None`
current slot writes a single absence bit and uses no prior. -/
def writeObjectsPrior (ring : List HQMSavedTick)
    (gamePacket knownPacket i : Nat) (cur : HQMObjectPacket) :
    Option HQMObjectPacket :=
  let old := slotOldPacket (findOldPackets ring gamePacket knownPacket) i
  match cur with
  | .puck _ =>
      old.bind fun x =>
        match x with
        | .puck op => some (.puck op)
        | _ => Option.none
  | .skater _ =>
      old.bind fun x =>
        match x with
        | .skater os => some (.skater os)
        | _ => Option.none
  | .none => Option.none

/-- Spec-side predicate: two packets describe the same object type
(spec §4.6 "the slot type matches"). -/
def packetTypeMatches : HQMObjectPacket → HQMObjectPacket → Prop
  | .puck _, .puck _ => True
  | .skater _, .skater _ => True
  | _, _ => False

/-! Outbound frame message block (`send_updates`, `hqm_server.rs:3806-3817`)
and the unvalidated client cursor (`player_update`, `hqm_server.rs:193`). -/

/-- Wrap-around bound of Rust `usize` arithmetic in release builds. -/
def USIZEWRAP : Nat := 18446744073709551616

/-- Rust `usize` subtraction as compiled in release mode (wrapping); in a
debug build the underflow is an immediate panic instead.  Requires
`b < USIZEWRAP`, which holds for every value in this development. -/
def usizeSub (a b : Nat) : Nat := (a + USIZEWRAP - b) % USIZEWRAP

/-- The message block of one outbound 0x05 frame
(`hqm_server.rs:3808-3817`): `remaining = min(messages.len() −
known_msgpos, 15)` followed by the slice
`messages[known_msgpos .. known_msgpos + remaining]`.  `known_msgpos` is the
cursor the client reported (`player_update`, `hqm_server.rs:193`, a raw
`u16`).  `Option.none` models the panic raised when the slice bounds exceed
the message list (or, in a debug build, when the subtraction underflows). -/
def sendFrameMessageSlice (messages : List HQMMessage) (knownMsgpos : Nat) :
    Option (Nat × List HQMMessage) :=
  let remaining := min (usizeSub messages.length knownMsgpos) 15
  if knownMsgpos + remaining ≤ messages.length then
    some (remaining, (messages.drop knownMsgpos).take remaining)
  else Option.none

/-! Faceoff position assignment (`get_faceoff_positions` /
`setup_position`, `hqm_server.rs:1834-1910`).  `setup_position` is modelled
for one team: the team tag added to every pair is constant and the two team
calls touch disjoint player sets, so it is omitted from the result pairs. -/

/-- First pass of `setup_position` (`hqm_server.rs:1863-1876`): each player
in turn receives their preferred label if it is still available (the removed
element equals the preferred label, since it is found by equality).
Assignments accumulate in `acc`; returns the assignments and the labels
still available. -/
def firstPass : List (Nat × Option String) → List String →
    List (Nat × String) → List (Nat × String) × List String
  | [], avail, acc => (acc, avail)
  | (pi, pref) :: ps, avail, acc =>
      match pref with
      | some pp =>
          match avail.findIdx? (fun x => x == pp) with
          | some x => firstPass ps (avail.eraseIdx x) (acc ++ [(pi, pp)])
          | Option.none => firstPass ps avail acc
      | Option.none => firstPass ps avail acc

/-- Second pass of `setup_position` (`hqm_server.rs:1877-1900`): players not
yet assigned.  When "C" is still available the source comments "Someone
needs to be C" but then executes `available_positions.remove(0)` — index 0,
not the found index of "C" — identical to the no-"C" branch; with no labels
left, the preferred label or "C" is reused.  (The `[]` sub-branch under a
successful "C" search is unreachable and returns "C".) -/
def secondPass : List (Nat × Option String) → List String →
    List (Nat × String) → List (Nat × String)
  | [], _, acc => acc
  | (pi, pref) :: ps, avail, acc =>
      if acc.any (fun r => r.1 == pi) then secondPass ps avail acc
      else
        match avail.findIdx? (fun x => x == "C") with
        | some _ =>
            match avail with
            | a :: rest => secondPass ps rest (acc ++ [(pi, a)])
            | [] => secondPass ps [] (acc ++ [(pi, "C")])
        | Option.none =>
            match avail with
            | a :: rest => secondPass ps rest (acc ++ [(pi, a)])
            | [] =>
                secondPass ps []
                  (acc ++ [(pi, match pref with
                                | some pp => pp
                                | Option.none => "C")])

/-- `setup_position` (`hqm_server.rs:1857-1904`) for one team's player list
(pairs of player index and preferred label). -/
def setupPosition (players : List (Nat × Option String))
    (allowed : List String) : List (Nat × String) :=
  let r := firstPass players allowed []
  secondPass players r.2 r.1

/-! Session inactivity timeout (`update_players_and_input`,
`hqm_server.rs:1176-1196`). -/

/-- The fields of `HQMConnectedPlayer` read or written by the timeout slice
of `update_players_and_input`. -/
structure HQMTimeoutPlayer where
  playerName : String
  inactivity : Nat
  skater : Option Nat
deriving DecidableEq

/-- The inactivity-timeout slice of `update_players_and_input`
(`hqm_server.rs:1177-1196`) for one occupied session slot at `playerIndex`:
increment `inactivity`; when it exceeds 500, clear the skater object slot,
queue a `PlayerUpdate{in_server: false}` and a "name timed out" chat, and
destroy the session (first component `Option.none`).  A surviving session
proceeds (at the `continue` boundary) to the input/team-switch handling of
lines 1198-1248, which never removes a session and is outside this slice. -/
def inactivityStep {P : Type} (objects : List (HQMGameObject P))
    (playerIndex : Nat) (p : HQMTimeoutPlayer) :
    Option HQMTimeoutPlayer × List (HQMGameObject P) × List HQMMessage ×
      List String :=
  let p2 := { p with inactivity := p.inactivity + 1 }
  if 500 < p2.inactivity then
    let objects2 :=
      match p2.skater with
      | some oi => objects.set oi HQMGameObject.none
      | Option.none => objects
    (Option.none, objects2,
      [HQMMessage.playerUpdate p2.playerName Option.none playerIndex false],
      [p2.playerName ++ " timed out"])
  else (some p2, objects, [], [])

/-! Session layer: JOIN handling (`player_join`, `hqm_server.rs:207-242`)
and datagram dispatch (`handle_message`, `hqm_server.rs:54-78`). -/

/-- Socket address: an IP (abstracted to `Nat`) plus port; the ban list
stores bare IPs (`ban_list: HashSet<IpAddr>`, `addr.ip()`). -/
structure RSSocketAddr where
  ip : Nat
  port : Nat
deriving DecidableEq

/-- The fields of a connected session needed by the JOIN path
(`HQMConnectedPlayer::new`, `hqm_server.rs:4145-4168`, restricted to the
fields the JOIN claims observe). -/
structure RSServerPlayer where
  playerName : String
  addr : RSSocketAddr
  messages : List HQMMessage
deriving DecidableEq

/-- The server state touched by the JOIN path: the session table, ban list
and the three message logs (`HQMServer` / `HQMGame` fields used in
`hqm_server.rs:207-242, 966-994, 1103-1118`). -/
structure RSServerState where
  players : List (Option RSServerPlayer)
  banList : List Nat
  persistentMessages : List HQMMessage
  replayMessages : List HQMMessage
deriving DecidableEq

/-- `player_count` (`hqm_server.rs:112-120`). -/
def rsPlayerCount (st : RSServerState) : Nat :=
  st.players.countP (·.isSome)

/-- `find_player_slot` (`hqm_server.rs:1119-1124`). -/
def rsFindPlayerSlot (st : RSServerState) (addr : RSSocketAddr) :
    Option Nat :=
  st.players.findIdx? fun x =>
    match x with
    | some p => p.addr == addr
    | Option.none => false

/-- `find_empty_player_slot` (`hqm_server.rs:1126-1128`). -/
def rsFindEmptyPlayerSlot (st : RSServerState) : Option Nat :=
  st.players.findIdx? (·.isNone)

/-- `add_global_message` at the server level (`hqm_server.rs:1103-1118`):
append to the replay log, to the persistent log when `persistent`, and to
every connected session's queue. -/
def rsAddGlobalMessage (st : RSServerState) (m : HQMMessage)
    (persistent : Bool) : RSServerState :=
  { st with
    replayMessages := st.replayMessages ++ [m]
    persistentMessages :=
      if persistent then st.persistentMessages ++ [m]
      else st.persistentMessages
    players := st.players.map fun x =>
      match x with
      | some p => some { p with messages := p.messages ++ [m] }
      | Option.none => Option.none }

/-- `add_server_chat_message` (`hqm_server.rs:1066-1072`): a non-persistent
server chat broadcast. -/
def rsAddServerChatMessage (st : RSServerState) (s : String) : RSServerState :=
  rsAddGlobalMessage st (.chat Option.none s) false

/-- `get_player_name` (`hqm_server.rs:4083-4098`): truncate at the first
NUL, decode, trim, empty becomes "Noname".  `String::from_utf8` is modelled
on the ASCII fragment (a byte ≥ 128 yields `Option.none`); multi-byte UTF-8
sequences are accepted by the source but no claim reaches name decoding. -/
def getPlayerName (bytes : List Nat) : Option String :=
  let bytes2 := bytes.takeWhile (· ≠ 0)
  if bytes2.all (· < 128) then
    let s := (String.mk (bytes2.map Char.ofNat)).trim
    some (if s.isEmpty then "Noname" else s)
  else Option.none

/-- `add_player` (`hqm_server.rs:966-995`): find an empty slot, broadcast
`PlayerUpdate{in_server: true}` persistently, then create the session whose
initial queue is the persistent log (which now includes that update) plus
the welcome chats. -/
def rsAddPlayer (cfg : HQMServerConfiguration) (st : RSServerState)
    (name : String) (addr : RSSocketAddr) : Option (Nat × RSServerState) :=
  match rsFindEmptyPlayerSlot st with
  | some playerIndex =>
      let st2 := rsAddGlobalMessage st
        (.playerUpdate name Option.none playerIndex true) true
      let msgs := st2.persistentMessages ++
        cfg.welcome.map (fun w => HQMMessage.chat Option.none w)
      some (playerIndex,
        { st2 with players :=
            st2.players.set playerIndex (some ⟨name, addr, msgs⟩) })
  | Option.none => Option.none

/-- `player_join` (`hqm_server.rs:207-242`): the four rejection checks in
source order (table full, wrong protocol version, address already mapped,
banned IP), then name decoding and `add_player`, then the "name joined"
chat. -/
def playerJoin (cfg : HQMServerConfiguration) (st : RSServerState)
    (addr : RSSocketAddr) (version : Nat) (nameBytes : List Nat) :
    RSServerState :=
  if cfg.playerMax ≤ rsPlayerCount st then st
  else if version ≠ 55 then st
  else if (rsFindPlayerSlot st addr).isSome then st
  else if addr.ip ∈ st.banList then st
  else
    match getPlayerName nameBytes with
    | some name =>
        match rsAddPlayer cfg st name addr with
        | some r => rsAddServerChatMessage r.2 (name ++ " joined")
        | Option.none => st
    | Option.none => st

/-- The magic header "Hock" (`GAME_HEADER`, spec §6: `48 6F 63 6B`). -/
def gameHeader : List Nat := [72, 111, 99, 107]

/-- The handler selected by `handle_message` for one datagram
(`hqm_server.rs:54-78`). -/
inductive DatagramCommand
  | requestInfo
  | join
  | update (cmd : Nat)
  | exitCmd
deriving DecidableEq

/-- Dispatch of `handle_message` (`hqm_server.rs:54-78`): the first four
bytes must be the magic header, then the command byte selects a handler;
`Option.none` is the wrong-magic / unknown-command path, on which the
source returns immediately without touching any state. -/
def dispatchDatagram (msg : List Nat) : Option DatagramCommand :=
  if msg.take 4 = gameHeader then
    match msg.get? 4 with
    | some 0 => some .requestInfo
    | some 2 => some .join
    | some 4 => some (.update 4)
    | some 8 => some (.update 8)
    | some 16 => some (.update 16)
    | some 7 => some .exitCmd
    | _ => Option.none
  else Option.none

/-! Spec-side definitions.  These follow the wording of the spec (not the
source) and are compared with the source-derived definitions above. -/

/-- Spec §4.3: "scorer = most recent puck-toucher of `team` within the
puck's touch history" (the history is kept front-most first). -/
def specScorer {P : Type} (touches : List (HQMPuckTouch P)) (team : HQMTeam) :
    Option Nat :=
  (touches.find? fun t => decide (t.team = team)).map (·.playerIndex)

/-- Spec §4.3: "assist = next distinct toucher of `team` different from
scorer". -/
def specAssist {P : Type} (touches : List (HQMPuckTouch P)) (team : HQMTeam) :
    Option Nat :=
  match specScorer touches team with
  | some s =>
      (touches.find? fun t =>
        decide (t.team = team ∧ t.playerIndex ≠ s)).map (·.playerIndex)
  | Option.none => Option.none

/-- Scores after `call_goal`'s increment step, per the amended claim C3:
incremented for the scoring team only in regulation (period ≤ 3). -/
def goalNewScores {P F : Type} (g : HQMGame P F) (team : HQMTeam) :
    Nat × Nat :=
  (if team = .red ∧ g.period ≤ 3 then g.redScore + 1 else g.redScore,
   if team = .blue ∧ g.period ≤ 3 then g.blueScore + 1 else g.blueScore)

/-- Mercy-rule trigger on a given score pair (amended claim C3: the source
tests exact equality of the differential with `mercy_rule`, in both
directions). -/
def mercyTriggered (cfg : HQMServerConfiguration) (r b : Nat) : Bool :=
  decide (r + cfg.mercyRule = b) || decide (r = b + cfg.mercyRule)

/-! Concrete fixtures used by the witness theorems. -/

/-- Witness configuration. -/
def cfgW : HQMServerConfiguration :=
  { timeBreak := 1, timeIntermission := 2, mercyRule := 3,
    icing := .touch, offside := .delayed, playerMax := 16, welcome := [] }

/-- Witness rink with `Nat` positions and faceoff spots. -/
def rinkW : HQMRink Nat Nat :=
  { centerFaceoffSpot := 0
    getOffsideFaceoffSpot := fun p _ => p + 100
    getIcingFaceoffSpot := fun p _ => p + 200 }

/-- Witness offensive-zone oracle. -/
def zoW : HQMTeam → Bool := fun _ => true

/-- Witness touch history: the concrete scenario of spec §8.2 (front-most
first: session 5 Red, 7 Red, 5 Red, 2 Blue). -/
def touchesW : List (HQMPuckTouch Nat) :=
  [⟨5, .red, 40, 1200⟩, ⟨7, .red, 41, 1180⟩, ⟨5, .red, 42, 1150⟩,
   ⟨2, .blue, 43, 1100⟩]

/-- Witness puck carrying `touchesW`. -/
def pkW : HQMPuck Nat := ⟨9, touchesW⟩

/-- Witness game state: first period, clock running, no pending calls. -/
def gameW : HQMGame Nat Nat :=
  { period := 1, time := 300, timeBreak := 0, paused := false,
    gameOver := false, isIntermissionGoal := false, redScore := 0,
    blueScore := 0, offsideStatus := .inNeutralZone, icingStatus := .no,
    nextFaceoffSpot := 0, shootoutNumber := 0,
    shootoutRedScore := ["N", "N", "N", "N", "N"],
    shootoutBlueScore := ["N", "N", "N", "N", "N"],
    gamePlayers := [⟨5, 0, 0⟩, ⟨7, 0, 0⟩, ⟨2, 0, 0⟩],
    objects := [HQMGameObject.puck pkW], messages := [] }

/-- Witness paused game (rule-tick guard active). -/
def gamePausedW : HQMGame Nat Nat := { gameW with paused := true }

/-- Witness game with a pending offside warning for Red (pass origin 7,
passer session 3). -/
def gameWarnW : HQMGame Nat Nat :=
  { gameW with offsideStatus := .warning .red 7 3 }

/-- Witness overtime game (period 4) with an untouched puck. -/
def gameOTW : HQMGame Nat Nat :=
  { gameW with period := 4, objects := [HQMGameObject.puck ⟨9, []⟩] }

/-- Witness game whose ranked roster is empty (touchers have no
`game_players` row). -/
def gameNoPlayersW : HQMGame Nat Nat := { gameW with gamePlayers := [] }

/-- The state `call_goal` produces from `gameW` for a Red goal on puck 0:
red score 1, break clock `1 * 100`, centre faceoff, scorer 5 credited with
a goal, 7 with an assist, and the Goal message appended. -/
def gameWGoal : HQMGame Nat Nat :=
  { gameW with
    redScore := 1, timeBreak := 100, isIntermissionGoal := true,
    nextFaceoffSpot := 0,
    gamePlayers := [⟨5, 1, 0⟩, ⟨7, 0, 1⟩, ⟨2, 0, 0⟩],
    messages := [HQMMessage.goal .red (some 5) (some 7)] }

/-- Witness player slot at the timeout boundary claimed by the spec. -/
def alice499 : HQMTimeoutPlayer := ⟨"Alice", 499, some 0⟩

/-- Witness player slot one tick later (the real removal boundary). -/
def alice500 : HQMTimeoutPlayer := ⟨"Alice", 500, some 0⟩

/-- Witness server state whose ban list contains IP 9. -/
def stBanW : RSServerState :=
  { players := [Option.none], banList := [9], persistentMessages := [],
    replayMessages := [] }

/-- Witness joining address with banned IP 9. -/
def addrW : RSSocketAddr := ⟨9, 1000⟩

/-- Witness snapshot ring: three ticks, slot 0 holding pucks in ticks 0-1
and a skater in tick 2. -/
def ringW : List HQMSavedTick :=
  [⟨[HQMObjectPacket.puck ⟨(1, 2, 3), (4, 5)⟩]⟩,
   ⟨[HQMObjectPacket.puck ⟨(6, 7, 8), (9, 10)⟩]⟩,
   ⟨[HQMObjectPacket.skater ⟨(0, 0, 0), (0, 0), (0, 0, 0), (0, 0), 0, 0⟩]⟩]

/-! Theorems settling the claims. -/

/-- C6: processing simulation events is a no-op — the whole rule and match
state, message log included, is returned unchanged — whenever the
`handle_events` guard holds: period 0, time 0, a running break clock, a
paused game, or a pending Icing/Offside call; so while such a call is
pending no new rule events are processed. -/
theorem claim6_rule_tick_noop {P F : Type} (cfg : HQMServerConfiguration)
    (rink : HQMRink P F) (zo : HQMTeam → Bool) (g : HQMGame P F)
    (evs : List HQMSimulationEvent) (h : rulesGuard g = true) :
    handleEvents cfg rink zo g evs = some g := by
  unfold handleEvents
  rw [if_pos h]

/-- Witness for C6 at a concrete paused game and a nonempty event list. -/
theorem claim6_rule_tick_noop_witness :
    rulesGuard gamePausedW = true ∧
      handleEvents cfgW rinkW zoW gamePausedW
        [.puckEnteredNet .red 0, .puckTouch 1 0] = some gamePausedW :=
  ⟨by decide,
   claim6_rule_tick_noop cfgW rinkW zoW gamePausedW
     [.puckEnteredNet .red 0, .puckTouch 1 0] (by decide)⟩

/-- C5 (code bug): the outbound-frame message block does not satisfy
`known_msgpos + remaining ≤ messages.len()` for every client-reported
`known_msgpos`.  With an empty message list and the unvalidated cursor 1,
`messages.len() - known_msgpos` underflows, `remaining` clamps to 15, and
slicing `messages[1..16]` panics (modelled by `Option.none`) instead of
producing a frame. -/
theorem claim5_msgpos_overflow_panics :
    sendFrameMessageSlice [] 1 = Option.none := by
  decide

/-- C7 (code bug): in the second pass of `setup_position`, with allowed
labels `["G", "C"]` and one player without a preferred position, the player
receives "G" even though "C" is available — the branch commented "Someone
needs to be C" removes index 0 rather than the index at which "C" was
found. -/
theorem claim7_second_pass_ignores_c :
    setupPosition [(0, Option.none)] ["G", "C"] = [(0, "G")] := by
  decide

/-- C9: a JOIN is rejected with no state change whatsoever — no session, no
message broadcast — when the sender's IP is banned, the session table is
full, the address is already mapped, or the protocol version is not 55; and
a datagram whose first four bytes are not the "Hock" magic selects no
handler (the source returns immediately, with no session effect). -/
theorem claim9_join_rejections (cfg : HQMServerConfiguration)
    (st : RSServerState) (addr : RSSocketAddr) (version : Nat)
    (nameBytes : List Nat)
    (h : addr.ip ∈ st.banList ∨ cfg.playerMax ≤ rsPlayerCount st ∨
      (rsFindPlayerSlot st addr).isSome = true ∨ version ≠ 55) :
    playerJoin cfg st addr version nameBytes = st ∧
      ∀ msg : List Nat, msg.take 4 ≠ gameHeader →
        dispatchDatagram msg = Option.none := by
  constructor
  · unfold playerJoin
    split_ifs with h1 h2 h3 h4
    · rfl
    · rfl
    · rfl
    · rfl
    · rcases h with h | h | h | h
      · exact absurd h h4
      · exact absurd h h1
      · exact absurd h h3
      · exact absurd h h2
  · intro msg hm
    unfold dispatchDatagram
    rw [if_neg hm]

/-- Witness for C9: a banned IP is dropped, and a wrong-magic datagram
selects no handler. -/
theorem claim9_join_rejections_witness :
    playerJoin cfgW stBanW addrW 55 [65] = stBanW ∧
      dispatchDatagram [1, 2, 3, 4, 2] = Option.none :=
  ⟨(claim9_join_rejections cfgW stBanW addrW 55 [65]
      (Or.inl (by decide))).1,
   (claim9_join_rejections cfgW stBanW addrW 55 [65]
      (Or.inl (by decide))).2 [1, 2, 3, 4, 2] (by decide)⟩

/-- C8 counterexample: a session whose inactivity counter stands at 499 is
not removed by the next inactive tick — the source tests
`inactivity > 500` after the increment, so the slot survives with the
counter at 500 and no removal side effects occur. -/
theorem claim8_counterexample :
    (inactivityStep (P := Nat) [HQMGameObject.none] 0 alice499).1 ≠
        Option.none ∧
      inactivityStep (P := Nat) [HQMGameObject.none] 0 alice499 =
        (some ⟨"Alice", 500, some 0⟩, [HQMGameObject.none], [], []) := by
  decide

/-- C8 (amended): a session whose inactivity counter stands at 500 or more
is removed by the next inactive tick: the slot becomes `None`, its skater
object slot is cleared to Empty, and a `PlayerUpdate{in_server = false}`
plus a "name timed out" chat are queued — equivalently, sessions are
destroyed on the 501st consecutive inactive tick, when the counter first
exceeds 500. -/
theorem claim8_amended_timeout {P : Type} (objects : List (HQMGameObject P))
    (playerIndex : Nat) (p : HQMTimeoutPlayer) (h : 500 ≤ p.inactivity) :
    inactivityStep objects playerIndex p =
      (Option.none,
        (match p.skater with
         | some oi => objects.set oi HQMGameObject.none
         | Option.none => objects),
        [HQMMessage.playerUpdate p.playerName Option.none playerIndex false],
        [p.playerName ++ " timed out"]) := by
  have hlt : 500 < p.inactivity + 1 := Nat.lt_succ_of_le h
  simp only [inactivityStep, if_pos hlt]

/-- Witness for C8 (amended) at the concrete 500-tick boundary. -/
theorem claim8_amended_timeout_witness :
    inactivityStep (P := Nat) [HQMGameObject.player ⟨0, .red, "C"⟩] 0
        alice500 =
      (Option.none, [HQMGameObject.none],
        [HQMMessage.playerUpdate "Alice" Option.none 0 false],
        ["Alice timed out"]) :=
  claim8_amended_timeout [HQMGameObject.player ⟨0, .red, "C"⟩] 0 alice500
    (by decide)

/-- C1: dispatch of a `PuckEnteredNet{team}` event (the per-event step of
`handle_events`, which is reached only when the rule-tick guard of
`claim6_rule_tick_noop` has not already returned): with a pending offside
warning for the same attacking team, the prior pass is converted into an
offside call at the stored pass origin and no goal is credited (scores
unchanged, only the "Offside" chat appended); with status `Offside` the
event is ignored; in every other offside state `call_goal` credits the goal
to that team. -/
theorem claim1_puck_entered_net {P F : Type} (cfg : HQMServerConfiguration)
    (rink : HQMRink P F) (zo : HQMTeam → Bool) (g : HQMGame P F)
    (team : HQMTeam) (puckIdx : Nat) :
    (∀ p i, g.offsideStatus = .warning team p i →
        handleEvent cfg rink zo g (.puckEnteredNet team puckIdx) =
          some (callOffside cfg rink g team p) ∧
        (callOffside cfg rink g team p).redScore = g.redScore ∧
        (callOffside cfg rink g team p).blueScore = g.blueScore ∧
        (callOffside cfg rink g team p).messages =
          g.messages ++ [.chat Option.none "Offside"] ∧
        (callOffside cfg rink g team p).nextFaceoffSpot =
          rink.getOffsideFaceoffSpot p team ∧
        (callOffside cfg rink g team p).offsideStatus = .offside team) ∧
    (∀ t, g.offsideStatus = .offside t →
        handleEvent cfg rink zo g (.puckEnteredNet team puckIdx) = some g) ∧
    ((∀ p i, g.offsideStatus ≠ .warning team p i) →
      (∀ t, g.offsideStatus ≠ .offside t) →
        handleEvent cfg rink zo g (.puckEnteredNet team puckIdx) =
          callGoal cfg rink g team puckIdx) := by
  refine ⟨?_, ?_, ?_⟩
  · intro p i hst
    refine ⟨by simp [handleEvent, hst], ?_, ?_, ?_, ?_, ?_⟩ <;>
      simp [callOffside, addServerChatMessage, addGlobalMessage]
  · intro t hst
    simp [handleEvent, hst]
  · intro hw ho
    cases hst : g.offsideStatus with
    | warning t p i =>
        have hne : ¬t = team := fun he => hw p i (he ▸ hst)
        simp [handleEvent, hst, hne]
    | offside t => exact absurd hst (ho t)
    | inNeutralZone => simp [handleEvent, hst]
    | inOffensiveZone t => simp [handleEvent, hst]

/-- Witness for C1: with a pending Red offside warning at stored origin 7,
a Red net entry becomes an offside call at origin 7. -/
theorem claim1_puck_entered_net_witness :
    handleEvent cfgW rinkW zoW gameWarnW (.puckEnteredNet .red 0) =
      some (callOffside cfgW rinkW gameWarnW .red 7) :=
  ((claim1_puck_entered_net cfgW rinkW zoW gameWarnW .red 0).1 7 3 rfl).1

/-- C4: in the per-session object delta block, the prior packet used for
slot `i` comes from the snapshot ring at index `game.packet − known_packet`
exactly when that index is strictly positive, smaller than 192 and than the
ring length, and the ring slot holds an object of the same type as the
current packet; in every other case — a stale ack beyond the ring depth, a
never-acked client (`known_packet = u32::MAX`), an ack from the future, or
a type mismatch — no prior is used and the fields are encoded absolutely. -/
theorem claim4_prior_selection (ring : List HQMSavedTick)
    (gamePacket knownPacket i : Nat) (cur old : HQMObjectPacket)
    (hgp : gamePacket ≤ U32MAX) :
    writeObjectsPrior ring gamePacket knownPacket i cur = some old ↔
      0 < gamePacket - knownPacket ∧ gamePacket - knownPacket < 192 ∧
        gamePacket - knownPacket < ring.length ∧
        ((ring.get? (gamePacket - knownPacket)).bind
          fun t => t.packets.get? i) = some old ∧
        packetTypeMatches old cur := by
  have hgp2 : gamePacket ≤ 4294967295 := hgp
  have hfind : findOldPackets ring gamePacket knownPacket =
      (if 0 < gamePacket - knownPacket ∧ gamePacket - knownPacket < 192 ∧
          gamePacket - knownPacket < ring.length then
        (ring.get? (gamePacket - knownPacket)).map (·.packets)
      else Option.none) := by
    unfold findOldPackets checkedSub
    by_cases hmax : knownPacket = U32MAX
    · have hlt2 : ¬U32MAX < gamePacket := by
        show ¬(4294967295 : Nat) < gamePacket
        omega
      simp [hmax, hlt2]
    · simp only [hmax, if_false]
      by_cases hle : knownPacket ≤ gamePacket
      · simp only [if_pos hle]
        by_cases hc : 0 < gamePacket - knownPacket ∧
            gamePacket - knownPacket < 192 ∧
            gamePacket - knownPacket < ring.length
        · rw [if_pos ⟨hc.2.2, hc.2.1, hc.1⟩, if_pos hc]
        · rw [if_neg (fun hx => hc ⟨hx.2.2, hx.2.1, hx.1⟩), if_neg hc]
      · have hlt : ¬knownPacket < gamePacket := by omega
        simp [hle, hlt]
  unfold writeObjectsPrior slotOldPacket
  rw [hfind]
  by_cases hc : 0 < gamePacket - knownPacket ∧
      gamePacket - knownPacket < 192 ∧ gamePacket - knownPacket < ring.length
  · rw [if_pos hc]
    cases hr : (ring[gamePacket - knownPacket]? : Option HQMSavedTick) with
    | none => cases cur <;> simp [hr, packetTypeMatches, hc.1, hc.2.1, hc.2.2]
    | some tick =>
        cases hs : (tick.packets[i]? : Option HQMObjectPacket) with
        | none =>
            cases cur <;>
              simp [hr, hs, packetTypeMatches, hc.1, hc.2.1, hc.2.2]
        | some oldp =>
            cases cur <;> cases oldp <;> cases old <;>
              simp [hr, hs, packetTypeMatches, hc.1, hc.2.1, hc.2.2]
  · rw [if_neg hc]
    have hc3 : ¬(0 < gamePacket - knownPacket ∧
        gamePacket - knownPacket < 192 ∧
        gamePacket - knownPacket < ring.length ∧
        ((ring.get? (gamePacket - knownPacket)).bind
          fun t => t.packets.get? i) = some old ∧
        packetTypeMatches old cur) := fun hx => hc ⟨hx.1, hx.2.1, hx.2.2.1⟩
    cases cur <;> simp only [Option.none_bind] <;>
      exact ⟨fun h => absurd h (by simp), fun h => absurd h hc3⟩

/-- Witness for C4: with `game.packet = 10` and ack 9 the prior comes from
ring index 1 (a type-matching puck), and with a stale ack 7 (index 3,
beyond the three-deep ring) no prior is used. -/
theorem claim4_prior_selection_witness :
    writeObjectsPrior ringW 10 9 0 (HQMObjectPacket.puck ⟨(0, 0, 0), (0, 0)⟩) =
        some (HQMObjectPacket.puck ⟨(6, 7, 8), (9, 10)⟩) ∧
      writeObjectsPrior ringW 10 7 0
          (HQMObjectPacket.puck ⟨(0, 0, 0), (0, 0)⟩) ≠
        some (HQMObjectPacket.puck ⟨(6, 7, 8), (9, 10)⟩) :=
  ⟨(claim4_prior_selection ringW 10 9 0 _ _ (by decide)).mpr
      ⟨by decide, by decide, by decide, by decide, trivial⟩,
   fun h =>
    by
      have := (claim4_prior_selection ringW 10 7 0
        (HQMObjectPacket.puck ⟨(0, 0, 0), (0, 0)⟩)
        (HQMObjectPacket.puck ⟨(6, 7, 8), (9, 10)⟩) (by decide)).mp h
      exact absurd this.2.2.1 (by decide)⟩

/-! Helper lemmas about the stages of `callGoal`, shared by several claims. -/

theorem goalScores_eq {P F : Type} (g : HQMGame P F) (team : HQMTeam) :
    goalScores g team =
      { g with
        redScore := (goalNewScores g team).1
        blueScore := (goalNewScores g team).2 } := by
  unfold goalScores goalNewScores
  rcases team <;> by_cases h : g.period ≤ 3 <;> simp [h]

theorem goalTimers_eq {P F : Type} (cfg : HQMServerConfiguration)
    (rink : HQMRink P F) (g : HQMGame P F) :
    goalTimers cfg rink g =
      { g with
        timeBreak := cfg.timeBreak * 100
        isIntermissionGoal := true
        nextFaceoffSpot := rink.centerFaceoffSpot } := rfl

theorem goalShootout_some {P F : Type} {cfg : HQMServerConfiguration}
    {g g3 : HQMGame P F} {team : HQMTeam}
    (h : goalShootout cfg g team = some g3) :
    g3.redScore = g.redScore ∧ g3.blueScore = g.blueScore ∧
      g3.period = g.period ∧ g3.objects = g.objects ∧
      g3.messages = g.messages ∧ g3.gamePlayers = g.gamePlayers ∧
      g3.gameOver = g.gameOver ∧ g3.nextFaceoffSpot = g.nextFaceoffSpot ∧
      g3.timeBreak =
        (if 3 < g.period then cfg.timeIntermission * 100 else g.timeBreak) := by
  unfold goalShootout setShootoutPlus at h
  by_cases hp : 3 < g.period
  · rw [if_pos hp] at h
    rcases team
    · by_cases hl : g.shootoutNumber < g.shootoutRedScore.length
      · simp only [if_pos hl, Option.map_some'] at h
        obtain rfl := (Option.some_inj.mp h).symm
        simp [hp]
      · simp [hl] at h
    · by_cases hl : g.shootoutNumber < g.shootoutBlueScore.length
      · simp only [if_pos hl, Option.map_some'] at h
        obtain rfl := (Option.some_inj.mp h).symm
        simp [hp]
      · simp [hl] at h
  · rw [if_neg hp] at h
    obtain rfl := Option.some_inj.mp h
    simp [hp]

theorem goalMercy_proj {P F : Type} (cfg : HQMServerConfiguration)
    (g : HQMGame P F) :
    (goalMercy cfg g).redScore = g.redScore ∧
      (goalMercy cfg g).blueScore = g.blueScore ∧
      (goalMercy cfg g).objects = g.objects ∧
      (goalMercy cfg g).messages = g.messages ∧
      (goalMercy cfg g).gamePlayers = g.gamePlayers ∧
      (goalMercy cfg g).period = g.period ∧
      (goalMercy cfg g).nextFaceoffSpot = g.nextFaceoffSpot ∧
      (goalMercy cfg g).gameOver =
        (if mercyTriggered cfg g.redScore g.blueScore then true
         else g.gameOver) ∧
      (goalMercy cfg g).timeBreak =
        (if mercyTriggered cfg g.redScore g.blueScore then
          cfg.timeIntermission * 100
         else g.timeBreak) := by
  unfold goalMercy
  by_cases h1 : g.redScore + cfg.mercyRule = g.blueScore
  · rw [if_pos h1]
    by_cases h2 : g.redScore = g.blueScore + cfg.mercyRule
    · rw [if_pos h2]
      simp [mercyTriggered, h1, h2]
    · rw [if_neg h2]
      simp [mercyTriggered, h1, h2]
  · rw [if_neg h1]
    by_cases h2 : g.redScore = g.blueScore + cfg.mercyRule
    · rw [if_pos h2]
      simp [mercyTriggered, h1, h2]
    · rw [if_neg h2]
      simp [mercyTriggered, h1, h2]

theorem stagesPreserve {P F : Type} {cfg : HQMServerConfiguration}
    {rink : HQMRink P F} {g g3 : HQMGame P F} {team : HQMTeam}
    (h3 : goalShootout cfg (goalTimers cfg rink (goalScores g team)) team =
      some g3) :
    g3.objects = g.objects ∧ g3.gamePlayers = g.gamePlayers ∧
      g3.messages = g.messages ∧ g3.period = g.period ∧
      g3.redScore = (goalNewScores g team).1 ∧
      g3.blueScore = (goalNewScores g team).2 ∧
      g3.gameOver = g.gameOver ∧
      g3.nextFaceoffSpot = rink.centerFaceoffSpot ∧
      g3.timeBreak =
        (if 3 < g.period then cfg.timeIntermission * 100
         else cfg.timeBreak * 100) := by
  obtain ⟨hr, hb, hp, ho, hm, hgp, hgo, hf, htb⟩ := goalShootout_some h3
  rw [goalTimers_eq, goalScores_eq] at hr hb hp ho hm hgp hgo hf htb
  simp only at hr hb hp ho hm hgp hgo hf htb
  exact ⟨ho, hgp, hm, hp, hr, hb, hgo, hf, htb⟩

theorem goalCredit_puck {P F : Type} {g : HQMGame P F} {team : HQMTeam}
    {puckIdx : Nat} {pk : HQMPuck P}
    (h : g.objects.get? puckIdx = some (.puck pk)) :
    goalCredit g team puckIdx =
      (creditScorer team pk.touches g.gamePlayers).map
        fun q => (q.1, q.2.1, { g with gamePlayers := q.2.2 }) := by
  unfold goalCredit
  rw [h]

theorem goalCredit_obj_missing {P F : Type} {g : HQMGame P F}
    {team : HQMTeam} {puckIdx : Nat}
    (h : g.objects.get? puckIdx = Option.none) :
    goalCredit g team puckIdx = Option.none := by
  unfold goalCredit
  rw [h]

theorem goalCredit_obj_empty {P F : Type} {g : HQMGame P F} {team : HQMTeam}
    {puckIdx : Nat} (h : g.objects.get? puckIdx = some HQMGameObject.none) :
    goalCredit g team puckIdx = some (Option.none, Option.none, g) := by
  unfold goalCredit
  rw [h]

theorem goalCredit_obj_player {P F : Type} {g : HQMGame P F} {team : HQMTeam}
    {puckIdx : Nat} {s : HQMSkater}
    (h : g.objects.get? puckIdx = some (HQMGameObject.player s)) :
    goalCredit g team puckIdx = some (Option.none, Option.none, g) := by
  unfold goalCredit
  rw [h]

theorem goalCredit_shape {P F : Type} {g : HQMGame P F} {team : HQMTeam}
    {puckIdx : Nat} {r : Option Nat × Option Nat × HQMGame P F}
    (h : goalCredit g team puckIdx = some r) :
    ∃ gps, r.2.2 = { g with gamePlayers := gps } := by
  cases hobj : g.objects.get? puckIdx with
  | none => rw [goalCredit_obj_missing hobj] at h; exact absurd h (by simp)
  | some obj =>
      cases obj with
      | puck pk =>
          rw [goalCredit_puck hobj] at h
          cases hq : creditScorer team pk.touches g.gamePlayers with
          | none => rw [hq] at h; exact absurd h (by simp)
          | some q =>
              rw [hq] at h
              simp only [Option.map_some', Option.some_inj] at h
              exact ⟨q.2.2, by rw [← h]⟩
      | none =>
          rw [goalCredit_obj_empty hobj] at h
          simp only [Option.some_inj] at h
          exact ⟨g.gamePlayers, by rw [← h]⟩
      | player s =>
          rw [goalCredit_obj_player hobj] at h
          simp only [Option.some_inj] at h
          exact ⟨g.gamePlayers, by rw [← h]⟩

theorem bumpGoals_none_iff {gps : List RHQMGamePlayer} {i : Nat} :
    bumpGoals gps i = Option.none ↔ i ∉ gps.map (·.playerIR) := by
  induction gps with
  | nil => simp [bumpGoals]
  | cons p ps ih =>
      by_cases hp : p.playerIR = i
      · simp [bumpGoals, hp]
      · simp only [bumpGoals, if_neg hp, List.map_cons, List.mem_cons,
          Option.map_eq_none', ih]
        constructor
        · intro hn hx
          rcases hx with he | hm
          · exact hp he.symm
          · exact hn hm
        · intro hn hm
          exact hn (Or.inr hm)

theorem bumpGoals_map {gps gps2 : List RHQMGamePlayer} {i : Nat}
    (h : bumpGoals gps i = some gps2) :
    gps2.map (·.playerIR) = gps.map (·.playerIR) := by
  induction gps generalizing gps2 with
  | nil => exact absurd h (by simp [bumpGoals])
  | cons p ps ih =>
      by_cases hp : p.playerIR = i
      · simp only [bumpGoals, if_pos hp, Option.some_inj] at h
        rw [← h]; simp
      · simp only [bumpGoals, if_neg hp] at h
        cases hb : bumpGoals ps i with
        | none => rw [hb] at h; exact absurd h (by simp)
        | some gpsx =>
            rw [hb] at h
            simp only [Option.map_some', Option.some_inj] at h
            rw [← h]
            simp [ih hb]

theorem bumpAssists_none_iff {gps : List RHQMGamePlayer} {i : Nat} :
    bumpAssists gps i = Option.none ↔ i ∉ gps.map (·.playerIR) := by
  induction gps with
  | nil => simp [bumpAssists]
  | cons p ps ih =>
      by_cases hp : p.playerIR = i
      · simp [bumpAssists, hp]
      · simp only [bumpAssists, if_neg hp, List.map_cons, List.mem_cons,
          Option.map_eq_none', ih]
        constructor
        · intro hn hx
          rcases hx with he | hm
          · exact hp he.symm
          · exact hn hm
        · intro hn hm
          exact hn (Or.inr hm)

theorem specScorer_cons_pos {P : Type} {team : HQMTeam}
    {t : HQMPuckTouch P} {ts : List (HQMPuckTouch P)} (ht : t.team = team) :
    specScorer (t :: ts) team = some t.playerIndex := by
  unfold specScorer
  simp [ht]

theorem specScorer_cons_neg {P : Type} {team : HQMTeam}
    {t : HQMPuckTouch P} {ts : List (HQMPuckTouch P)} (ht : ¬t.team = team) :
    specScorer (t :: ts) team = specScorer ts team := by
  unfold specScorer
  simp [ht]

theorem specAssist_cons_pos {P : Type} {team : HQMTeam}
    {t : HQMPuckTouch P} {ts : List (HQMPuckTouch P)} (ht : t.team = team) :
    specAssist (t :: ts) team =
      (ts.find? fun x =>
        decide (x.team = team ∧ x.playerIndex ≠ t.playerIndex)).map
        (·.playerIndex) := by
  unfold specAssist
  rw [specScorer_cons_pos ht]
  simp

theorem specAssist_cons_neg {P : Type} {team : HQMTeam}
    {t : HQMPuckTouch P} {ts : List (HQMPuckTouch P)} (ht : ¬t.team = team) :
    specAssist (t :: ts) team = specAssist ts team := by
  unfold specAssist
  rw [specScorer_cons_neg ht]
  cases hsc : specScorer ts team with
  | none => rfl
  | some s => simp [ht]

theorem creditAssist_fst {P : Type} {team : HQMTeam} {scorer : Nat}
    {ts : List (HQMPuckTouch P)} {gps : List RHQMGamePlayer}
    {r : Option Nat × List RHQMGamePlayer}
    (h : creditAssist team scorer ts gps = some r) :
    r.1 = (ts.find? fun t =>
      decide (t.team = team ∧ t.playerIndex ≠ scorer)).map (·.playerIndex) := by
  induction ts generalizing gps r with
  | nil =>
      simp only [creditAssist, Option.some_inj] at h
      rw [← h]
      simp
  | cons t ts ih =>
      by_cases hcond : t.team = team ∧ t.playerIndex ≠ scorer
      · simp only [creditAssist, if_pos hcond] at h
        cases hb : bumpAssists gps t.playerIndex with
        | none => rw [hb] at h; exact absurd h (by simp)
        | some gps2 =>
            rw [hb] at h
            simp only [Option.map_some', Option.some_inj] at h
            rw [← h]
            simp [hcond.1, hcond.2]
      · simp only [creditAssist, if_neg hcond] at h
        rw [ih h]
        simp [hcond]

theorem creditScorer_spec {P : Type} {team : HQMTeam}
    {touches : List (HQMPuckTouch P)} {gps : List RHQMGamePlayer}
    {r : Option Nat × Option Nat × List RHQMGamePlayer}
    (h : creditScorer team touches gps = some r) :
    r.1 = specScorer touches team ∧ r.2.1 = specAssist touches team := by
  induction touches generalizing gps r with
  | nil =>
      simp only [creditScorer, Option.some_inj] at h
      rw [← h]
      simp [specScorer, specAssist]
  | cons t ts ih =>
      by_cases ht : t.team = team
      · simp only [creditScorer, if_pos ht] at h
        cases hb : bumpGoals gps t.playerIndex with
        | none => rw [hb] at h; exact absurd h (by simp)
        | some gps2 =>
            rw [hb] at h
            simp only [Option.some_bind] at h
            cases ha : creditAssist team t.playerIndex ts gps2 with
            | none => rw [ha] at h; exact absurd h (by simp)
            | some q =>
                rw [ha] at h
                simp only [Option.map_some', Option.some_inj] at h
                constructor
                · rw [← h]
                  exact (specScorer_cons_pos ht).symm
                · rw [← h, specAssist_cons_pos ht]
                  exact creditAssist_fst ha
      · simp only [creditScorer, if_neg ht] at h
        obtain ⟨h1, h2⟩ := ih h
        exact ⟨by rw [h1, specScorer_cons_neg ht],
          by rw [h2, specAssist_cons_neg ht]⟩

theorem creditAssist_none {P : Type} {team : HQMTeam} {scorer : Nat}
    {ts : List (HQMPuckTouch P)} {gps : List RHQMGamePlayer} {a : Nat}
    (ha : (ts.find? fun t =>
      decide (t.team = team ∧ t.playerIndex ≠ scorer)).map (·.playerIndex) =
      some a)
    (hmem : a ∉ gps.map (·.playerIR)) :
    creditAssist team scorer ts gps = Option.none := by
  induction ts generalizing gps with
  | nil => simp at ha
  | cons t ts ih =>
      by_cases hcond : t.team = team ∧ t.playerIndex ≠ scorer
      · have hfind : (t :: ts).find?
            (fun t => decide (t.team = team ∧ t.playerIndex ≠ scorer)) =
            some t :=
          List.find?_cons_of_pos _ (by simpa using hcond)
        rw [hfind] at ha
        simp only [Option.map_some', Option.some_inj] at ha
        subst ha
        simp only [creditAssist, if_pos hcond]
        rw [bumpAssists_none_iff.mpr hmem]
        rfl
      · have hskip : (t :: ts).find?
            (fun t => decide (t.team = team ∧ t.playerIndex ≠ scorer)) =
            ts.find? (fun t => decide (t.team = team ∧ t.playerIndex ≠ scorer)) :=
          List.find?_cons_of_neg _ (by simpa using hcond)
        rw [hskip] at ha
        simp only [creditAssist, if_neg hcond]
        exact ih ha hmem

theorem creditScorer_none_of_scorer_missing {P : Type} {team : HQMTeam}
    {touches : List (HQMPuckTouch P)} {gps : List RHQMGamePlayer} {s : Nat}
    (hs : specScorer touches team = some s)
    (hmem : s ∉ gps.map (·.playerIR)) :
    creditScorer team touches gps = Option.none := by
  induction touches generalizing gps with
  | nil => simp [specScorer] at hs
  | cons t ts ih =>
      by_cases ht : t.team = team
      · rw [specScorer_cons_pos ht] at hs
        obtain rfl := Option.some_inj.mp hs
        simp only [creditScorer, if_pos ht]
        rw [bumpGoals_none_iff.mpr hmem]
        rfl
      · rw [specScorer_cons_neg ht] at hs
        simp only [creditScorer, if_neg ht]
        exact ih hs hmem

theorem creditScorer_none_of_assist_missing {P : Type} {team : HQMTeam}
    {touches : List (HQMPuckTouch P)} {gps : List RHQMGamePlayer} {s a : Nat}
    (hs : specScorer touches team = some s)
    (ha : specAssist touches team = some a)
    (hmem : a ∉ gps.map (·.playerIR)) :
    creditScorer team touches gps = Option.none := by
  induction touches generalizing gps with
  | nil => simp [specScorer] at hs
  | cons t ts ih =>
      by_cases ht : t.team = team
      · rw [specScorer_cons_pos ht] at hs
        obtain rfl := Option.some_inj.mp hs
        rw [specAssist_cons_pos ht] at ha
        simp only [creditScorer, if_pos ht]
        cases hb : bumpGoals gps t.playerIndex with
        | none => rfl
        | some gps2 =>
            have hmem2 : a ∉ gps2.map (·.playerIR) := by
              rw [bumpGoals_map hb]; exact hmem
            simp only [Option.some_bind]
            rw [creditAssist_none ha hmem2]
            rfl
      · rw [specScorer_cons_neg ht] at hs
        rw [specAssist_cons_neg ht] at ha
        simp only [creditScorer, if_neg ht]
        exact ih hs ha hmem

/-- C2: for every goal successfully credited to `team` on a puck with touch
history `pk.touches`, the emitted Goal message names as scorer the
front-most toucher of `team` in the history, and as assist the next toucher
of `team` whose player index differs from the scorer's; a missing toucher
leaves the corresponding field `None`. -/
theorem claim2_goal_scorer_assist {P F : Type} (cfg : HQMServerConfiguration)
    (rink : HQMRink P F) (g : HQMGame P F) (team : HQMTeam) (puckIdx : Nat)
    (pk : HQMPuck P) (g' : HQMGame P F)
    (hpk : g.objects.get? puckIdx = some (.puck pk))
    (hcall : callGoal cfg rink g team puckIdx = some g') :
    g'.messages = g.messages ++
      [HQMMessage.goal team (specScorer pk.touches team)
        (specAssist pk.touches team)] := by
  unfold callGoal at hcall
  cases h3 : goalShootout cfg (goalTimers cfg rink (goalScores g team)) team with
  | none => rw [h3] at hcall; exact absurd hcall (by simp)
  | some g3 =>
      rw [h3] at hcall
      simp only [Option.some_bind] at hcall
      obtain ⟨ho, hgp, hm, hp, hr, hb, hgo, hf, htb⟩ := stagesPreserve h3
      obtain ⟨hmr, hmb, hmo, hmm, hmgp, hmp, hmf, hmgo, hmtb⟩ :=
        goalMercy_proj cfg g3
      have hobj : (goalMercy cfg g3).objects.get? puckIdx = some (.puck pk) := by
        rw [hmo, ho]; exact hpk
      rw [goalCredit_puck hobj] at hcall
      cases hq : creditScorer team pk.touches (goalMercy cfg g3).gamePlayers with
      | none => rw [hq] at hcall; exact absurd hcall (by simp)
      | some q =>
          rw [hq] at hcall
          simp only [Option.map_some', Option.some_inj] at hcall
          obtain ⟨hq1, hq2⟩ := creditScorer_spec hq
          subst hcall
          simp [addGlobalMessage, hmm, hm, hq1, hq2]

/-- Witness for C2 on the spec's concrete scenario (touches 5 Red, 7 Red,
5 Red, 2 Blue; Red goal ⇒ scorer 5, assist 7). -/
theorem claim2_goal_scorer_assist_witness :
    gameWGoal.messages = gameW.messages ++
        [HQMMessage.goal .red (specScorer touchesW .red)
          (specAssist touchesW .red)] ∧
      specScorer touchesW .red = some 5 ∧ specAssist touchesW .red = some 7 :=
  ⟨claim2_goal_scorer_assist cfgW rinkW gameW .red 0 pkW gameWGoal rfl
      (by decide),
   by decide, by decide⟩

/-- C3 counterexample: in overtime (period 4) a successfully credited goal
does not increment the scoring team's score and does not set `game_over` —
contradicting the claim that crediting always increments the score and that
period > 3 sets `game_over = true`.  (The break clock is lengthened to the
intermission, `2 * 100`.) -/
theorem claim3_counterexample :
    (callGoal cfgW rinkW gameOTW .red 0).map
        (fun g2 => (g2.redScore, g2.gameOver, g2.timeBreak)) =
      some (0, false, 200) := by
  decide

/-- C3 (amended): crediting a goal to `team` increments that team's score
only in regulation (period ≤ 3); it always sets `next_faceoff_spot` to
centre and emits a Goal message; `break_time` becomes the intermission when
the mercy differential is hit or period > 3, and the configured `time_break`
otherwise; `game_over` is set exactly when the (updated) score differential
equals `mercy_rule` — an OT/shootout goal by itself does not set it. -/
theorem claim3_amended_goal_credit {P F : Type} (cfg : HQMServerConfiguration)
    (rink : HQMRink P F) (g : HQMGame P F) (team : HQMTeam) (puckIdx : Nat)
    (g' : HQMGame P F)
    (hcall : callGoal cfg rink g team puckIdx = some g') :
    g'.redScore = (goalNewScores g team).1 ∧
      g'.blueScore = (goalNewScores g team).2 ∧
      g'.nextFaceoffSpot = rink.centerFaceoffSpot ∧
      (∃ s a, g'.messages = g.messages ++ [HQMMessage.goal team s a]) ∧
      g'.gameOver =
        (if mercyTriggered cfg (goalNewScores g team).1
            (goalNewScores g team).2 then true
         else g.gameOver) ∧
      g'.timeBreak =
        (if mercyTriggered cfg (goalNewScores g team).1
            (goalNewScores g team).2 then cfg.timeIntermission * 100
         else if 3 < g.period then cfg.timeIntermission * 100
         else cfg.timeBreak * 100) := by
  unfold callGoal at hcall
  cases h3 : goalShootout cfg (goalTimers cfg rink (goalScores g team)) team with
  | none => rw [h3] at hcall; exact absurd hcall (by simp)
  | some g3 =>
      rw [h3] at hcall
      simp only [Option.some_bind] at hcall
      cases h4 : goalCredit (goalMercy cfg g3) team puckIdx with
      | none => rw [h4] at hcall; exact absurd hcall (by simp)
      | some r =>
          rw [h4] at hcall
          simp only [Option.map_some', Option.some_inj] at hcall
          obtain ⟨ho, hgp, hm, hp, hr, hb, hgo, hf, htb⟩ := stagesPreserve h3
          obtain ⟨hmr, hmb, hmo, hmm, hmgp, hmp, hmf, hmgo, hmtb⟩ :=
            goalMercy_proj cfg g3
          obtain ⟨gps, hshape⟩ := goalCredit_shape h4
          subst hcall
          refine ⟨?_, ?_, ?_, ⟨r.1, r.2.1, ?_⟩, ?_, ?_⟩ <;>
            simp [addGlobalMessage, hshape, hmr, hmb, hmm, hmf, hmgo, hmtb,
              hr, hb, hm, hp, hgo, hf, htb]

/-- Witness for C3 (amended): a regulation Red goal from `gameW` increments
the red score and leaves `game_over` untouched. -/
theorem claim3_amended_goal_credit_witness :
    gameWGoal.redScore = (goalNewScores gameW .red).1 ∧
      gameWGoal.gameOver =
        (if mercyTriggered cfgW (goalNewScores gameW .red).1
            (goalNewScores gameW .red).2 then true
         else gameW.gameOver) :=
  ⟨(claim3_amended_goal_credit cfgW rinkW gameW .red 0 gameWGoal
      (by decide)).1,
   (claim3_amended_goal_credit cfgW rinkW gameW .red 0 gameWGoal
      (by decide)).2.2.2.2.1⟩

/-- C10: `call_goal` has the implicit precondition that the chosen scorer
and assist (the touchers of the scoring team selected from the puck's touch
history) have a row in `game.game_players` — the statistics lookup
`position(...).unwrap()` panics otherwise, modelled here by `callGoal`
returning `none` instead of completing. -/
theorem claim10_missing_stats_row_panics {P F : Type}
    (cfg : HQMServerConfiguration) (rink : HQMRink P F) (g : HQMGame P F)
    (team : HQMTeam) (puckIdx : Nat) (pk : HQMPuck P)
    (hpk : g.objects.get? puckIdx = some (.puck pk)) :
    (∀ s, specScorer pk.touches team = some s →
        s ∉ g.gamePlayers.map (·.playerIR) →
        callGoal cfg rink g team puckIdx = Option.none) ∧
      (∀ a, specAssist pk.touches team = some a →
        a ∉ g.gamePlayers.map (·.playerIR) →
        callGoal cfg rink g team puckIdx = Option.none) := by
  have key : creditScorer team pk.touches g.gamePlayers = Option.none →
      callGoal cfg rink g team puckIdx = Option.none := by
    intro hnone
    unfold callGoal
    cases h3 : goalShootout cfg (goalTimers cfg rink (goalScores g team)) team with
    | none => rfl
    | some g3 =>
        simp only [Option.some_bind]
        obtain ⟨ho, hgp, hm, hp, hr, hb, hgo, hf, htb⟩ := stagesPreserve h3
        obtain ⟨hmr, hmb, hmo, hmm, hmgp, hmp, hmf, hmgo, hmtb⟩ :=
          goalMercy_proj cfg g3
        have hobj : (goalMercy cfg g3).objects.get? puckIdx =
            some (.puck pk) := by
          rw [hmo, ho]; exact hpk
        rw [goalCredit_puck hobj, hmgp, hgp, hnone]
        rfl
  constructor
  · intro s hs hmem
    exact key (creditScorer_none_of_scorer_missing hs hmem)
  · intro a ha hmem
    cases hsc : specScorer pk.touches team with
    | none =>
        unfold specAssist at ha
        rw [hsc] at ha
        exact absurd ha (by simp)
    | some s => exact key (creditScorer_none_of_assist_missing hsc ha hmem)

/-- Witness for C10: with an empty ranked roster, crediting a Red goal on
the touched puck panics (modelled `none`). -/
theorem claim10_missing_stats_row_panics_witness :
    callGoal cfgW rinkW gameNoPlayersW .red 0 = Option.none :=
  (claim10_missing_stats_row_panics cfgW rinkW gameNoPlayersW .red 0 pkW
      rfl).1 5 (by decide) (by decide)

end RankedServer
